import Mathlib

/-!
Verification of the ladder.ai morphing particle engine
(src/ladder.ai/src/components/final.jsx, hero_back_dots.jsx and the
unnamed scroll variant).  The JavaScript float computations are embedded
over the real numbers; each definition mirrors the corresponding source
expression.
-/

noncomputable section

/-! ## Grid constants (final.jsx lines 56-69) -/

def segmentsX : ℕ := 240
def segmentsY : ℕ := 120

/-- Vertex count of a THREE.PlaneGeometry grid: (segmentsX+1)*(segmentsY+1)
rows-by-columns of vertices (final.jsx line 62 reads it back from the
geometry). -/
def gridCount : ℕ := (segmentsX + 1) * (segmentsY + 1)

/-! ## GLSL building blocks used by the shaders -/

/-- GLSL clamp(x, lo, hi) = min(max(x, lo), hi). -/
def clampR (x lo hi : ℝ) : ℝ := min (max x lo) hi

/-- The cubic t*t*(3 - 2*t) applied by GLSL smoothstep after clamping. -/
def smoothPoly (t : ℝ) : ℝ := t * t * (3 - 2 * t)

/-- GLSL smoothstep(e0, e1, x). -/
def smoothstepR (e0 e1 x : ℝ) : ℝ :=
  smoothPoly (clampR ((x - e0) / (e1 - e0)) 0 1)

/-! ## Wave elevation (final.jsx lines 213-222, hero_back_dots.jsx 99-108):
eight harmonic terms summed. -/

def wave1 (x y t : ℝ) : ℝ := Real.sin (y * 0.02 + t * 1.5) * 8.0
def wave2 (x y t : ℝ) : ℝ := Real.sin (y * 0.04 - t * 1.2) * 6.0
def wave3 (x y t : ℝ) : ℝ := Real.sin (y * 0.08 + t * 2.0) * 4.0
def wave4 (x y t : ℝ) : ℝ := Real.sin (x * 0.03 - t * 1.0) * 7.0
def wave5 (x y t : ℝ) : ℝ := Real.sin ((x + y) * 0.025 + t * 0.8) * 5.0
def wave6 (x y t : ℝ) : ℝ := Real.cos (x * 0.035 - y * 0.02 + t * 1.3) * 4.5
def detail1 (x y t : ℝ) : ℝ := Real.sin (x * 0.1 + y * 0.08 + t * 2.5) * 2.0
def detail2 (x y t : ℝ) : ℝ := Real.cos (x * 0.12 - y * 0.1 - t * 3.0) * 1.5

def elevation (x y t : ℝ) : ℝ :=
  wave1 x y t + wave2 x y t + wave3 x y t + wave4 x y t +
  wave5 x y t + wave6 x y t + detail1 x y t + detail2 x y t

/-! ## Fragment shader color parameters (final.jsx lines 286-310) -/

/-- mixStrength = clamp((vElevation + 25.0) / 50.0, 0.0, 1.0). -/
def mixStrength (vElevation : ℝ) : ℝ := clampR ((vElevation + 25.0) / 50.0) 0 1

/-- n = smoothstep(-0.4, 0.4, vNoise), the normalized sphere noise. -/
def sphereNoiseN (vNoise : ℝ) : ℝ := smoothstepR (-0.4) 0.4 vNoise

/-! ## Shared clamp and smoothstep range lemmas -/

lemma clampR01_nonneg (x : ℝ) : 0 ≤ clampR x 0 1 :=
  le_min (le_max_right x 0) (by norm_num)

lemma clampR01_le_one (x : ℝ) : clampR x 0 1 ≤ 1 := min_le_right _ 1

lemma smoothPoly_nonneg {t : ℝ} (h0 : 0 ≤ t) (h1 : t ≤ 1) : 0 ≤ smoothPoly t := by
  unfold smoothPoly; nlinarith

lemma smoothPoly_le_one {t : ℝ} (h0 : 0 ≤ t) (h1 : t ≤ 1) : smoothPoly t ≤ 1 := by
  unfold smoothPoly; nlinarith [sq_nonneg (1 - t), mul_nonneg (sq_nonneg (1 - t)) h0]

lemma smoothstepR_mem (e0 e1 x : ℝ) :
    0 ≤ smoothstepR e0 e1 x ∧ smoothstepR e0 e1 x ≤ 1 := by
  unfold smoothstepR
  exact ⟨smoothPoly_nonneg (clampR01_nonneg _) (clampR01_le_one _),
    smoothPoly_le_one (clampR01_nonneg _) (clampR01_le_one _)⟩

/-- C8: for every elevation value and every noise value, however extreme,
mixStrength = clamp((elevation+25)/50, 0, 1) and the normalized sphere
noise n = smoothstep(-0.4, 0.4, noiseValue) both lie in [0,1], so the
color gradients never receive an out-of-range blend parameter. -/
theorem c8_color_params_clamped (e v : ℝ) :
    (0 ≤ mixStrength e ∧ mixStrength e ≤ 1) ∧
    (0 ≤ sphereNoiseN v ∧ sphereNoiseN v ≤ 1) := by
  refine ⟨⟨le_min (le_max_right _ 0) (by norm_num), min_le_right _ 1⟩, ?_⟩
  exact smoothstepR_mem (-0.4) 0.4 v

/-- C10: the wave elevation, the sum of the eight harmonic terms with
amplitudes 8, 6, 4, 7, 5, 4.5, 2 and 1.5, is bounded in absolute value by
38, the sum of the amplitudes, for every particle position and time. -/
theorem c10_elevation_bound (x y t : ℝ) : |elevation x y t| ≤ 38 := by
  have h1 := Real.neg_one_le_sin (y * 0.02 + t * 1.5)
  have h1' := Real.sin_le_one (y * 0.02 + t * 1.5)
  have h2 := Real.neg_one_le_sin (y * 0.04 - t * 1.2)
  have h2' := Real.sin_le_one (y * 0.04 - t * 1.2)
  have h3 := Real.neg_one_le_sin (y * 0.08 + t * 2.0)
  have h3' := Real.sin_le_one (y * 0.08 + t * 2.0)
  have h4 := Real.neg_one_le_sin (x * 0.03 - t * 1.0)
  have h4' := Real.sin_le_one (x * 0.03 - t * 1.0)
  have h5 := Real.neg_one_le_sin ((x + y) * 0.025 + t * 0.8)
  have h5' := Real.sin_le_one ((x + y) * 0.025 + t * 0.8)
  have h6 := Real.neg_one_le_cos (x * 0.035 - y * 0.02 + t * 1.3)
  have h6' := Real.cos_le_one (x * 0.035 - y * 0.02 + t * 1.3)
  have h7 := Real.neg_one_le_sin (x * 0.1 + y * 0.08 + t * 2.5)
  have h7' := Real.sin_le_one (x * 0.1 + y * 0.08 + t * 2.5)
  have h8 := Real.neg_one_le_cos (x * 0.12 - y * 0.1 - t * 3.0)
  have h8' := Real.cos_le_one (x * 0.12 - y * 0.1 - t * 3.0)
  rw [abs_le]
  unfold elevation wave1 wave2 wave3 wave4 wave5 wave6 detail1 detail2
  constructor <;> nlinarith

/-! ## Scroll smoothing (final.jsx line 344, hero_back_dots.jsx line 191):
current += (target - current) * 0.05, applied once per frame. -/

/-- One frame of the exponential smoothing update. -/
def smoothedStep (target s : ℝ) : ℝ := s + (target - s) * 0.05

/-- The sequence of smoothed values across frames, starting from s0, with
the raw target held constant. -/
def smoothedSeq (target s0 : ℝ) : ℕ → ℝ
  | 0 => s0
  | n + 1 => smoothedStep target (smoothedSeq target s0 n)

lemma smoothedSeq_gap (target s0 : ℝ) (n : ℕ) :
    target - smoothedSeq target s0 n = 0.95 ^ n * (target - s0) := by
  induction n with
  | zero => simp [smoothedSeq]
  | succ n ih =>
    have h : target - smoothedSeq target s0 (n + 1) =
        0.95 * (target - smoothedSeq target s0 n) := by
      show target - smoothedStep target (smoothedSeq target s0 n) = _
      unfold smoothedStep; ring
    rw [h, ih]; ring

lemma smoothedSeq_tendsto (target s0 : ℝ) :
    Filter.Tendsto (smoothedSeq target s0) Filter.atTop (nhds target) := by
  have hpow : Filter.Tendsto (fun n : ℕ => (0.95 : ℝ) ^ n) Filter.atTop (nhds 0) :=
    tendsto_pow_atTop_nhds_zero_of_lt_one (by norm_num) (by norm_num)
  have hfun : smoothedSeq target s0 =
      fun n => target - 0.95 ^ n * (target - s0) := by
    funext n
    have := smoothedSeq_gap target s0 n
    linarith
  rw [hfun]
  have h2 : Filter.Tendsto (fun n : ℕ => (0.95 : ℝ) ^ n * (target - s0))
      Filter.atTop (nhds (0 * (target - s0))) := hpow.mul_const _
  have h3 := h2.const_sub target
  simpa using h3

/-- C3: for the per-frame update smoothed += (rawTarget - smoothed) * 0.05,
for every constant rawTarget and every initial value, the sequence of
smoothed values moves monotonically toward rawTarget, never crosses it,
and converges to it. -/
theorem c3_smoothing_monotone_convergent (target s0 : ℝ) :
    (s0 ≤ target → ∀ n, smoothedSeq target s0 n ≤ smoothedSeq target s0 (n + 1) ∧
      smoothedSeq target s0 n ≤ target) ∧
    (target ≤ s0 → ∀ n, smoothedSeq target s0 (n + 1) ≤ smoothedSeq target s0 n ∧
      target ≤ smoothedSeq target s0 n) ∧
    Filter.Tendsto (smoothedSeq target s0) Filter.atTop (nhds target) := by
  refine ⟨?_, ?_, smoothedSeq_tendsto target s0⟩
  · intro h n
    have hg := smoothedSeq_gap target s0 n
    have hpow : (0 : ℝ) ≤ 0.95 ^ n := by positivity
    have hle : smoothedSeq target s0 n ≤ target := by nlinarith
    refine ⟨?_, hle⟩
    show smoothedSeq target s0 n ≤ smoothedStep target (smoothedSeq target s0 n)
    unfold smoothedStep; nlinarith
  · intro h n
    have hg := smoothedSeq_gap target s0 n
    have hpow : (0 : ℝ) ≤ 0.95 ^ n := by positivity
    have hle : target ≤ smoothedSeq target s0 n := by nlinarith
    refine ⟨?_, hle⟩
    show smoothedStep target (smoothedSeq target s0 n) ≤ smoothedSeq target s0 n
    unfold smoothedStep; nlinarith

/-- Witness for C3 at target = 1, initial value 0: the first step moves up
and stays at most 1. -/
theorem c3_smoothing_monotone_convergent_witness :
    smoothedSeq 1 0 0 ≤ smoothedSeq 1 0 1 ∧ smoothedSeq 1 0 0 ≤ 1 :=
  (c3_smoothing_monotone_convergent 1 0).1 (by norm_num) 0

/-! ## Sphere mapping (final.jsx lines 71-90, hero_back_dots.jsx 53-74):
grid index to spherical coordinates to Cartesian. -/

/-- Column index: ix = i % (segmentsX + 1) (final.jsx line 73). -/
def ixOf (sX i : ℕ) : ℕ := i % (sX + 1)

/-- Row index: iy = floor(i / (segmentsX + 1)) (final.jsx line 74). -/
def iyOf (sX i : ℕ) : ℕ := i / (sX + 1)

/-- phi = (iy / segmentsY) * PI (final.jsx lines 77, 80). -/
def phiOf (sX sY i : ℕ) : ℝ := ((iyOf sX i : ℝ) / (sY : ℝ)) * Real.pi

/-- theta = (ix / segmentsX) * PI * 2 (final.jsx lines 76, 81). -/
def thetaOf (sX i : ℕ) : ℝ := ((ixOf sX i : ℝ) / (sX : ℝ)) * Real.pi * 2

/-- Spherical-to-Cartesian mapping of grid vertex i
(final.jsx lines 84-86). -/
def spherePosition (sX sY : ℕ) (r : ℝ) (i : ℕ) : ℝ × ℝ × ℝ :=
  (r * Real.sin (phiOf sX sY i) * Real.cos (thetaOf sX i),
   r * Real.cos (phiOf sX sY i),
   r * Real.sin (phiOf sX sY i) * Real.sin (thetaOf sX i))

/-- Written from the words of the spec (section 4.1): with u = ix/segmentsX,
v = iy/segmentsY, phi = v*pi, theta = u*2*pi, the record has
spherePosition = sphereRadius * (sin(phi)cos(theta), cos(phi),
sin(phi)sin(theta)).  Compared against the source definition in C1. -/
def spherePositionSpec (sX sY : ℕ) (r : ℝ) (i : ℕ) : ℝ × ℝ × ℝ :=
  (r * (Real.sin (((iyOf sX i : ℝ) / (sY : ℝ)) * Real.pi) *
        Real.cos (((ixOf sX i : ℝ) / (sX : ℝ)) * (2 * Real.pi))),
   r * Real.cos (((iyOf sX i : ℝ) / (sY : ℝ)) * Real.pi),
   r * (Real.sin (((iyOf sX i : ℝ) / (sY : ℝ)) * Real.pi) *
        Real.sin (((ixOf sX i : ℝ) / (sX : ℝ)) * (2 * Real.pi))))

/-- C1: for every grid index, the computed spherePosition agrees with the
spec formula sphereRadius*(sin(phi)cos(theta), cos(phi), sin(phi)sin(theta))
with phi = (iy/segmentsY)*pi and theta = (ix/segmentsX)*2*pi; in the
concrete 4x4 grid with radius 10, vertex (ix=0, iy=0) maps exactly to
(0, 10, 0) and vertex (ix=2, iy=2), grid index 12, maps to (-10, 0, 0). -/
theorem c1_sphere_mapping (sX sY : ℕ) (r : ℝ) (i : ℕ) :
    spherePosition sX sY r i = spherePositionSpec sX sY r i ∧
    spherePosition 4 4 10 0 = (0, 10, 0) ∧
    spherePosition 4 4 10 12 = (-10, 0, 0) := by
  refine ⟨?_, ?_, ?_⟩
  · unfold spherePosition spherePositionSpec phiOf thetaOf
    refine Prod.ext ?_ (Prod.ext ?_ ?_) <;> simp <;> ring_nf
  · unfold spherePosition phiOf thetaOf ixOf iyOf
    norm_num
  · unfold spherePosition phiOf thetaOf ixOf iyOf
    norm_num
    have hphi : ((1 : ℝ) / 2) * Real.pi = Real.pi / 2 := by ring
    have htheta : Real.pi / 2 * 2 = Real.pi := by ring
    rw [hphi, htheta, Real.sin_pi_div_two, Real.cos_pi_div_two, Real.cos_pi]
    norm_num

/-! ## Sphere normals (final.jsx lines 92-96): len = sqrt(x*x+y*y+z*z),
normal = (x/len, y/len, z/len), with radius 18 and the 240x120 grid. -/

/-- The sphere positions built by final.jsx: radius 18 on the 240x120
grid (final.jsx lines 58-59, 67). -/
def spherePositionMain (i : ℕ) : ℝ × ℝ × ℝ := spherePosition segmentsX segmentsY 18 i

/-- Euclidean length as computed at final.jsx line 93. -/
def norm3 (p : ℝ × ℝ × ℝ) : ℝ :=
  Real.sqrt (p.1 * p.1 + p.2.1 * p.2.1 + p.2.2 * p.2.2)

/-- sphereNormals of final.jsx lines 94-96: each component of the sphere
position divided by its length. -/
def sphereNormal (i : ℕ) : ℝ × ℝ × ℝ :=
  ((spherePositionMain i).1 / norm3 (spherePositionMain i),
   (spherePositionMain i).2.1 / norm3 (spherePositionMain i),
   (spherePositionMain i).2.2 / norm3 (spherePositionMain i))

lemma spherePositionMain_normSq (i : ℕ) :
    (spherePositionMain i).1 * (spherePositionMain i).1 +
    (spherePositionMain i).2.1 * (spherePositionMain i).2.1 +
    (spherePositionMain i).2.2 * (spherePositionMain i).2.2 = 324 := by
  unfold spherePositionMain spherePosition
  dsimp only
  have hphi := Real.sin_sq_add_cos_sq (phiOf segmentsX segmentsY i)
  have htheta := Real.sin_sq_add_cos_sq (thetaOf segmentsX i)
  nlinarith

lemma norm3_spherePositionMain (i : ℕ) : norm3 (spherePositionMain i) = 18 := by
  unfold norm3
  rw [spherePositionMain_normSq i, show (324 : ℝ) = 18 ^ 2 by norm_num,
    Real.sqrt_sq (by norm_num)]

/-- C7: for every grid index, the length of spherePosition equals the
configured radius 18 > 0 (poles included), so the normalizing division is
well defined, and sphereNormal is exactly unit length, hence within 1e-5
of 1. -/
theorem c7_sphere_normal_unit (i : ℕ) :
    norm3 (spherePositionMain i) = 18 ∧
    norm3 (sphereNormal i) = 1 ∧
    |norm3 (sphereNormal i) - 1| ≤ 1e-5 := by
  have hlen := norm3_spherePositionMain i
  have hsq := spherePositionMain_normSq i
  have hn : sphereNormal i = ((spherePositionMain i).1 / 18,
      (spherePositionMain i).2.1 / 18, (spherePositionMain i).2.2 / 18) := by
    unfold sphereNormal
    rw [hlen]
  have hone : norm3 (sphereNormal i) = 1 := by
    rw [hn]
    unfold norm3
    dsimp only
    have harg : (spherePositionMain i).1 / 18 * ((spherePositionMain i).1 / 18) +
        (spherePositionMain i).2.1 / 18 * ((spherePositionMain i).2.1 / 18) +
        (spherePositionMain i).2.2 / 18 * ((spherePositionMain i).2.2 / 18) = 1 := by
      field_simp
      linarith
    rw [harg, Real.sqrt_one]
  exact ⟨hlen, hone, by rw [hone]; norm_num⟩

/-! ## Transition delays (final.jsx lines 101-107): distance from the grid
center, normalized by the corner distance, scaled by 0.4. -/

/-- centerX = segmentsX / 2 (final.jsx line 103). -/
def centerX : ℝ := (segmentsX : ℝ) / 2

/-- centerY = segmentsY / 2 (final.jsx line 104). -/
def centerY : ℝ := (segmentsY : ℝ) / 2

/-- distFromCenter = sqrt((ix - centerX)^2 + (iy - centerY)^2)
(final.jsx line 105). -/
def distFromCenter (i : ℕ) : ℝ :=
  Real.sqrt (((ixOf segmentsX i : ℝ) - centerX) ^ 2 +
             ((iyOf segmentsX i : ℝ) - centerY) ^ 2)

/-- maxDist = sqrt(centerX^2 + centerY^2) (final.jsx line 106). -/
def maxDist : ℝ := Real.sqrt (centerX ^ 2 + centerY ^ 2)

/-- delays[i] = (distFromCenter / maxDist) * 0.4 (final.jsx line 107). -/
def delays (i : ℕ) : ℝ := distFromCenter i / maxDist * 0.4

lemma maxDist_pos : 0 < maxDist := by
  unfold maxDist centerX centerY segmentsX segmentsY
  rw [Real.sqrt_pos]
  norm_num

lemma delays_nonneg (i : ℕ) : 0 ≤ delays i := by
  unfold delays
  have h1 : 0 ≤ distFromCenter i := Real.sqrt_nonneg _
  have h2 := maxDist_pos
  positivity

lemma distFromCenter_le_maxDist {i : ℕ} (hi : i < gridCount) :
    distFromCenter i ≤ maxDist := by
  unfold distFromCenter maxDist centerX centerY ixOf iyOf segmentsX segmentsY
  apply Real.sqrt_le_sqrt
  have hx : i % (240 + 1) < 241 := Nat.mod_lt _ (by norm_num)
  have hy : i / (240 + 1) < 121 := by
    rw [Nat.div_lt_iff_lt_mul (by norm_num : 0 < 240 + 1)]
    calc i < gridCount := hi
    _ = 121 * (240 + 1) := by norm_num [gridCount, segmentsX, segmentsY]
  have hxr : ((i % (240 + 1) : ℕ) : ℝ) ≤ 240 := by
    exact_mod_cast Nat.le_of_lt_succ hx
  have hyr : ((i / (240 + 1) : ℕ) : ℝ) ≤ 120 := by
    exact_mod_cast Nat.le_of_lt_succ hy
  have hxr0 : (0 : ℝ) ≤ ((i % (240 + 1) : ℕ) : ℝ) := Nat.cast_nonneg _
  have hyr0 : (0 : ℝ) ≤ ((i / (240 + 1) : ℕ) : ℝ) := Nat.cast_nonneg _
  push_cast at hxr hyr hxr0 hyr0 ⊢
  nlinarith

lemma delays_le {i : ℕ} (hi : i < gridCount) : delays i ≤ 0.4 := by
  unfold delays
  have h1 := distFromCenter_le_maxDist hi
  have h2 := maxDist_pos
  have h3 : distFromCenter i / maxDist ≤ 1 := (div_le_one h2).mpr h1
  nlinarith

/-- C4: if the Euclidean grid-distance of particle i from the grid center
is at most that of particle j, then delays i is at most delays j; and every
delay of an in-range grid index lies in [0, 0.4]. -/
theorem c4_delay_monotone_bounded (i j : ℕ) (hij : distFromCenter i ≤ distFromCenter j)
    (hi : i < gridCount) :
    delays i ≤ delays j ∧ 0 ≤ delays i ∧ delays i ≤ 0.4 := by
  refine ⟨?_, delays_nonneg i, delays_le hi⟩
  unfold delays
  have h2 := maxDist_pos
  have h3 : distFromCenter i / maxDist ≤ distFromCenter j / maxDist :=
    (div_le_div_iff_of_pos_right h2).mpr hij
  nlinarith

/-- Witness for C4 at i = j = 0, which is an in-range grid index. -/
theorem c4_delay_monotone_bounded_witness :
    delays 0 ≤ delays 0 ∧ 0 ≤ delays 0 ∧ delays 0 ≤ 0.4 :=
  c4_delay_monotone_bounded 0 0 le_rfl
    (by norm_num [gridCount, segmentsX, segmentsY])

/-! ## Staggered per-particle progress (final.jsx lines 236-238):
adjustedScroll = uScroll * 1.4 - aDelay;
localProgress = smoothstep(0, 1, clamp(adjustedScroll, 0, 1)). -/

def localProgress (uScroll aDelay : ℝ) : ℝ :=
  smoothstepR 0 1 (clampR (uScroll * 1.4 - aDelay) 0 1)

lemma clampR01_of_nonpos {x : ℝ} (h : x ≤ 0) : clampR x 0 1 = 0 := by
  unfold clampR
  rw [max_eq_right h, min_eq_left (by norm_num)]

lemma clampR01_of_one_le {x : ℝ} (h : 1 ≤ x) : clampR x 0 1 = 1 := by
  unfold clampR
  rw [max_eq_left (by linarith), min_eq_right h]

lemma smoothstep01_zero : smoothstepR 0 1 0 = 0 := by
  unfold smoothstepR smoothPoly clampR
  norm_num

lemma smoothstep01_one : smoothstepR 0 1 1 = 1 := by
  unfold smoothstepR smoothPoly clampR
  norm_num

/-- C2: with the code constants scaleFactor = 1.4 and delayWindow = 0.4,
the staggered particle progress smoothstep(clamp(smoothed*1.4 - delay, 0, 1))
is 0 for every in-range particle when smoothed = 0, and 1 for every
in-range particle as soon as smoothed reaches (1 + 0.4) / 1.4, in
particular at smoothed = 1. -/
theorem c2_staggered_progress (i : ℕ) (hi : i < gridCount) (s : ℝ)
    (hs : (1 + 0.4) / 1.4 ≤ s) :
    localProgress 0 (delays i) = 0 ∧ localProgress s (delays i) = 1 := by
  constructor
  · unfold localProgress
    rw [clampR01_of_nonpos (by nlinarith [delays_nonneg i]), smoothstep01_zero]
  · unfold localProgress
    have hd := delays_le hi
    have hs1 : (1 : ℝ) ≤ s := by nlinarith
    rw [clampR01_of_one_le (by nlinarith), smoothstep01_one]

/-- Witness for C2 at grid index 0 and smoothed = 1. -/
theorem c2_staggered_progress_witness :
    localProgress 0 (delays 0) = 0 ∧ localProgress 1 (delays 0) = 1 :=
  c2_staggered_progress 0 (by norm_num [gridCount, segmentsX, segmentsY]) 1
    (by norm_num)

/-! ## Scroll normalization.
final.jsx lines 408-413: maxScroll = innerHeight * 1.5;
progress = Math.min(scrollY / maxScroll, 1.0).
part_000 lines 218-223: maxScroll = scrollHeight - innerHeight;
progress = Math.min(currentScroll / (maxScroll || 1), 1);
the JavaScript expression (maxScroll || 1) replaces a zero denominator
with 1. -/

def handleScrollFinal (scrollY innerHeight : ℝ) : ℝ :=
  min (scrollY / (innerHeight * 1.5)) 1

def handleScrollPart0 (currentScroll maxScroll : ℝ) : ℝ :=
  min (currentScroll / (if maxScroll = 0 then 1 else maxScroll)) 1

/-- C5 counterexample: the claim says the normalized scroll progress is
clamped into [0,1] for every raw scroll offset, but the code only takes a
minimum with 1; at scroll offset -2 with scrollable height 3 the produced
value is negative. -/
theorem c5_scroll_clamp_counterexample : handleScrollPart0 (-2) 3 < 0 := by
  unfold handleScrollPart0
  norm_num

/-- C5 amended: the progress is min(offset / denominator, 1) - clamped
above by 1 but not below by 0; it lies in [0,1] whenever the offset is
nonnegative and the denominator positive; a zero denominator is replaced
by 1 in the part_000 variant (the final.jsx variant divides by
viewportHeight * 1.5 with no zero guard). -/
theorem c5_scroll_clamp_amended (c m y h : ℝ) :
    handleScrollPart0 c m ≤ 1 ∧
    (0 ≤ c → 0 < m → 0 ≤ handleScrollPart0 c m) ∧
    handleScrollPart0 c 0 = min c 1 ∧
    (0 ≤ y → 0 < h → 0 ≤ handleScrollFinal y h ∧ handleScrollFinal y h ≤ 1) := by
  refine ⟨min_le_right _ 1, ?_, ?_, ?_⟩
  · intro hc hm
    unfold handleScrollPart0
    rw [if_neg (ne_of_gt hm)]
    exact le_min (by positivity) (by norm_num)
  · unfold handleScrollPart0
    rw [if_pos rfl, div_one]
  · intro hy hh
    unfold handleScrollFinal
    constructor
    · exact le_min (by positivity) (by norm_num)
    · exact min_le_right _ 1

/-- Witness for the amended C5 at offset 1, scrollable height 2. -/
theorem c5_scroll_clamp_amended_witness :
    handleScrollPart0 1 2 ≤ 1 ∧ 0 ≤ handleScrollPart0 1 2 ∧
    0 ≤ handleScrollFinal 1 2 ∧ handleScrollFinal 1 2 ≤ 1 :=
  ⟨(c5_scroll_clamp_amended 1 2 1 2).1,
   (c5_scroll_clamp_amended 1 2 1 2).2.1 (by norm_num) (by norm_num),
   ((c5_scroll_clamp_amended 1 2 1 2).2.2.2 (by norm_num) (by norm_num)).1,
   ((c5_scroll_clamp_amended 1 2 1 2).2.2.2 (by norm_num) (by norm_num)).2⟩

/-! ## Geometry construction (final.jsx lines 56-113).
The construction path creates a THREE.PlaneGeometry grid of
(segmentsX+1)*(segmentsY+1) vertices (the library floors the segment
counts and builds the grid for any values, throwing nothing) and then
runs the per-vertex loop for every index below the count.  Nothing on
this path validates the inputs, so the embedding is total and returns
Option.some unconditionally. -/

def buildGeometry (sX sY : ℕ) (r : ℝ) : Option (List (ℝ × ℝ × ℝ)) :=
  some ((List.range ((sX + 1) * (sY + 1))).map (spherePosition sX sY r))

/-- C6 counterexample: the claim says construction with segmentsX ≤ 0 is
rejected and initialization fails fast, but the construction at
segmentsX = 0 succeeds and produces records. -/
theorem c6_construction_counterexample :
    (buildGeometry 0 120 18).isSome = true := rfl

/-- C6 amended: construction never fails for any input - it always
succeeds and yields (segmentsX+1)*(segmentsY+1) records; no validation
exists.  In the shipped code the inputs are the hardcoded positive
constants segmentsX = 240 and segmentsY = 120, so an invalid resolution
can never reach the construction. -/
theorem c6_construction_amended (sX sY : ℕ) (r : ℝ) :
    (buildGeometry sX sY r).isSome = true ∧
    Option.map List.length (buildGeometry sX sY r) = some ((sX + 1) * (sY + 1)) ∧
    0 < segmentsX ∧ 0 < segmentsY := by
  refine ⟨rfl, ?_, by norm_num [segmentsX], by norm_num [segmentsY]⟩
  simp [buildGeometry]

/-! ## Camera transition (final.jsx lines 350-391): endpoint poses lerped
by the smoothed scroll; idle sway added to camera x and y with amplitude
scaled by waveDamp = 1 - scroll. -/

def waveCamPos : ℝ × ℝ × ℝ := (0, 30, 60)
def sphereCamPos : ℝ × ℝ × ℝ := (0, 0, 55)
def waveLookAt : ℝ × ℝ × ℝ := (0, 15, 0)
def sphereLookAt : ℝ × ℝ × ℝ := (0, 0, 0)
def waveUp : ℝ × ℝ × ℝ := (0, -1, 0)
def sphereUp : ℝ × ℝ × ℝ := (0, 1, 0)

/-- THREE.Vector3.lerpVectors(a, b, s): componentwise a + (b - a) * s. -/
def lerp3 (a b : ℝ × ℝ × ℝ) (s : ℝ) : ℝ × ℝ × ℝ :=
  (a.1 + (b.1 - a.1) * s, a.2.1 + (b.2.1 - a.2.1) * s, a.2.2 + (b.2.2 - a.2.2) * s)

/-- Camera position at smoothed scroll s and elapsed time t: the lerp of
the endpoint positions (final.jsx line 357) plus the sway added to x and
y (final.jsx lines 390-391). -/
def cameraPos (s t : ℝ) : ℝ × ℝ × ℝ :=
  ((lerp3 waveCamPos sphereCamPos s).1 + Real.sin (t * 0.2) * 3 * (1 - s),
   (lerp3 waveCamPos sphereCamPos s).2.1 + Real.cos (t * 0.15) * 2 * (1 - s),
   (lerp3 waveCamPos sphereCamPos s).2.2)

/-- Look-at target at smoothed scroll s (final.jsx lines 360-363). -/
def lookAtTarget (s : ℝ) : ℝ × ℝ × ℝ := lerp3 waveLookAt sphereLookAt s

/-- Up vector at smoothed scroll s (final.jsx lines 367-369). -/
def cameraUp (s : ℝ) : ℝ × ℝ × ℝ := lerp3 waveUp sphereUp s

/-- C9: the camera pose is the independent lerp of the two endpoint poses
by the smoothed value plus an idle sway whose amplitude scales with
(1 - smoothed); at smoothed = 1 the pose equals the sphere-mode endpoint
pose exactly and, under a sustained scroll target of 1, the position
converges to it; at smoothed = 0 the look-at and up equal the wave-mode
endpoints and the position stays within the sway amplitude (3 in x, 2 in
y, 0 in z) of the wave-mode endpoint position. -/
theorem c9_camera_pose (s t s0 : ℝ) :
    cameraPos s t = lerp3 waveCamPos sphereCamPos s +
      ((1 - s) * (Real.sin (t * 0.2) * 3), (1 - s) * (Real.cos (t * 0.15) * 2),
       (1 - s) * 0) ∧
    cameraPos 1 t = sphereCamPos ∧
    lookAtTarget 1 = sphereLookAt ∧
    cameraUp 1 = sphereUp ∧
    |(cameraPos 0 t).1 - waveCamPos.1| ≤ 3 ∧
    |(cameraPos 0 t).2.1 - waveCamPos.2.1| ≤ 2 ∧
    (cameraPos 0 t).2.2 = waveCamPos.2.2 ∧
    lookAtTarget 0 = waveLookAt ∧
    cameraUp 0 = waveUp ∧
    Filter.Tendsto (fun n => cameraPos (smoothedSeq 1 s0 n) t) Filter.atTop
      (nhds sphereCamPos) := by
  refine ⟨?_, ?_, ?_, ?_, ?_, ?_, ?_, ?_, ?_, ?_⟩
  · unfold cameraPos lerp3 waveCamPos sphereCamPos
    refine Prod.ext ?_ (Prod.ext ?_ ?_) <;> simp <;> ring
  · unfold cameraPos lerp3 waveCamPos sphereCamPos
    refine Prod.ext ?_ (Prod.ext ?_ ?_) <;> simp
  · unfold lookAtTarget lerp3 waveLookAt sphereLookAt
    refine Prod.ext ?_ (Prod.ext ?_ ?_) <;> simp
  · unfold cameraUp lerp3 waveUp sphereUp
    refine Prod.ext ?_ (Prod.ext ?_ ?_) <;> simp
  · unfold cameraPos lerp3 waveCamPos sphereCamPos
    simp only
    have h := Real.abs_sin_le_one (t * 0.2)
    rw [abs_le] at h ⊢
    constructor <;> nlinarith [h.1, h.2]
  · unfold cameraPos lerp3 waveCamPos sphereCamPos
    simp only
    have h := Real.abs_cos_le_one (t * 0.15)
    rw [abs_le] at h ⊢
    constructor <;> nlinarith [h.1, h.2]
  · unfold cameraPos lerp3 waveCamPos sphereCamPos
    norm_num
  · unfold lookAtTarget lerp3 waveLookAt sphereLookAt
    refine Prod.ext ?_ (Prod.ext ?_ ?_) <;> simp
  · unfold cameraUp lerp3 waveUp sphereUp
    refine Prod.ext ?_ (Prod.ext ?_ ?_) <;> simp
  · have hs := smoothedSeq_tendsto 1 s0
    have hgap : Filter.Tendsto (fun n => 1 - smoothedSeq 1 s0 n) Filter.atTop
        (nhds 0) := by
      have := hs.const_sub 1
      simpa using this
    have hfun : (fun n => cameraPos (smoothedSeq 1 s0 n) t) = fun n =>
        (Real.sin (t * 0.2) * 3 * (1 - smoothedSeq 1 s0 n),
         (30 - 30 * smoothedSeq 1 s0 n +
           Real.cos (t * 0.15) * 2 * (1 - smoothedSeq 1 s0 n),
          60 - 5 * smoothedSeq 1 s0 n)) := by
      funext n
      unfold cameraPos lerp3 waveCamPos sphereCamPos
      refine Prod.ext ?_ (Prod.ext ?_ ?_) <;> simp <;> ring
    rw [hfun]
    have hx : Filter.Tendsto (fun n => Real.sin (t * 0.2) * 3 *
        (1 - smoothedSeq 1 s0 n)) Filter.atTop (nhds 0) := by
      have := hgap.const_mul (Real.sin (t * 0.2) * 3)
      simpa using this
    have hy : Filter.Tendsto (fun n => 30 - 30 * smoothedSeq 1 s0 n +
        Real.cos (t * 0.15) * 2 * (1 - smoothedSeq 1 s0 n)) Filter.atTop
        (nhds 0) := by
      have h1 : Filter.Tendsto (fun n => 30 - 30 * smoothedSeq 1 s0 n)
          Filter.atTop (nhds (30 - 30 * 1)) :=
        (hs.const_mul 30).const_sub 30
      have h2 := hgap.const_mul (Real.cos (t * 0.15) * 2)
      have h3 := h1.add h2
      rw [show (30 - 30 * 1 + Real.cos (t * 0.15) * 2 * 0 : ℝ) = 0 by ring] at h3
      exact h3
    have hz : Filter.Tendsto (fun n => 60 - 5 * smoothedSeq 1 s0 n)
        Filter.atTop (nhds (60 - 5 * 1)) :=
      (hs.const_mul 5).const_sub 60
    have hz55 : Filter.Tendsto (fun n => 60 - 5 * smoothedSeq 1 s0 n)
        Filter.atTop (nhds 55) := by norm_num at hz; exact hz
    have := hx.prod_mk_nhds (hy.prod_mk_nhds hz55)
    simpa [sphereCamPos] using this

end





